import Mathlib

/-!
Shallow embedding of the odontogram/periodontogram core of MuelitaSys.

The repository holds two variants of the application:
  * `codigo_dental_final.py` — single-file Tkinter + SQLite app; its
    `OdontogramTab` and `PeriodonticsTab` classes are embedded below.
  * `sistema_odontologico.py` — `DentalManagementSystem`; its
    odontogram canvas operations and `save_perio_measurements` are embedded.

Numeric cell text is parsed to rationals (`ℚ`): every numeric value the
claims exercise is an exactly representable decimal, for which rational
arithmetic agrees with the Python floats the code uses.  Python's `float`
literal parsing is modelled on the decimal fragment the application
produces (optional sign, digits, optional fraction, optional exponent).
-/

namespace MuelitaSys

/-- Value of a list of decimal digits, most significant first (the model of
Python `int` applied to a digit string). -/
def digitsToNat (l : List Char) : Nat :=
  l.foldl (fun n c => 10 * n + (c.toNat - 48)) 0

/-- Exponent tail of a float literal: a nonempty digit run; a positive
exponent scales the mantissa up, a negative one raises the power-of-ten
denominator. -/
def parseExpDigits (n scale : Nat) (pos : Bool) (r : List Char) : Option (Nat × Nat) :=
  if r ≠ [] ∧ r.all Char.isDigit then
    some (if pos then (n * 10 ^ digitsToNat r, scale) else (n, scale + digitsToNat r))
  else none

/-- Optionally signed exponent digits. -/
def parseSignedExp (n scale : Nat) : List Char → Option (Nat × Nat)
  | '+' :: r => parseExpDigits n scale true r
  | '-' :: r => parseExpDigits n scale false r
  | r => parseExpDigits n scale true r

/-- After the mantissa: either end of input or an `e`/`E` exponent part. -/
def parseExpTail (n scale : Nat) : List Char → Option (Nat × Nat)
  | [] => some (n, scale)
  | 'e' :: r => parseSignedExp n scale r
  | 'E' :: r => parseSignedExp n scale r
  | _ => none

/-- Unsigned decimal mantissa: `digits`, `digits.digits`, `digits.` or
`.digits`; returns the digit value, the number of fractional digits and
the unconsumed input. -/
def parseUnsigned (l : List Char) : Option ((Nat × Nat) × List Char) :=
  let ip := l.takeWhile Char.isDigit
  let r1 := l.dropWhile Char.isDigit
  match r1 with
  | '.' :: r2 =>
      let fp := r2.takeWhile Char.isDigit
      let r3 := r2.dropWhile Char.isDigit
      if ip.isEmpty && fp.isEmpty then none
      else some ((digitsToNat (ip ++ fp), fp.length), r3)
  | _ => if ip.isEmpty then none else some ((digitsToNat ip, 0), r1)

/-- Mantissa followed by an optional exponent, with the final sign: the
represented value is the integer divided by the power of ten. -/
def parseBody (neg : Bool) (l : List Char) : Option (ℤ × Nat) :=
  match parseUnsigned l with
  | none => none
  | some ((n, k), rest) =>
      (parseExpTail n k rest).map
        (fun p => (if neg then -(p.1 : ℤ) else (p.1 : ℤ), p.2))

/-- Signed decimal literal as integer mantissa over a power of ten. -/
def parseRep (s : String) : Option (ℤ × Nat) :=
  match s.toList with
  | [] => parseBody false []
  | c :: r =>
      if c = '-' then parseBody true r
      else if c = '+' then parseBody false r
      else parseBody false (c :: r)

/-- Model of Python `float(s)` on the decimal-literal fragment, valued in
`ℚ` (the exact value of the literal): `none` when the string does not parse
as a number. -/
def parseFloatQ (s : String) : Option ℚ :=
  (parseRep s).map (fun p => (p.1 : ℚ) / 10 ^ p.2)

/-- `PeriodonticsTab._to_float`: `float(s)` with a bare `except` returning
`0.0`, so the parse is total and silently coercing. -/
def to_float (s : String) : ℚ :=
  match parseFloatQ s with
  | some q => q
  | none => 0

/-- Truncation toward zero, as Python `int` applied to a float. -/
def truncQ (q : ℚ) : ℤ :=
  if 0 ≤ q then ⌊q⌋ else -⌊-q⌋

/-- `PeriodonticsTab._to_int`: `int(float(s))` with a bare `except`
returning `0`. -/
def to_int (s : String) : ℤ :=
  match parseFloatQ s with
  | some q => truncQ q
  | none => 0

theorem to_float_eval (s : String) (z : ℤ) (k : Nat) (h : parseRep s = some (z, k)) :
    to_float s = (z : ℚ) / 10 ^ k := by
  simp [to_float, parseFloatQ, h]

/-! ## Odontogram of `codigo_dental_final.py` (`OdontogramTab`) -/

/-- The five odontogram statuses of `ODONTO_STATES`
(`["Sano","Caries","Restauración","Ausente","Implante"]`); in the spec's
English: Healthy, Decayed, Restored, Missing, Implant. -/
inductive Status where
  | sano
  | caries
  | restauracion
  | ausente
  | implante
deriving DecidableEq, BEq

/-- The Python display name of a status. -/
def statusName : Status → String
  | .sano => "Sano"
  | .caries => "Caries"
  | .restauracion => "Restauración"
  | .ausente => "Ausente"
  | .implante => "Implante"

/-- `ODONTO_STATES`, in source order. -/
def ODONTO_STATES : List Status :=
  [.sano, .caries, .restauracion, .ausente, .implante]

/-- `ODONTO_COLORS`: status name → canvas fill color. -/
def ODONTO_COLORS : List (String × String) :=
  [("Sano", "#A7F3D0"), ("Caries", "#FCA5A5"), ("Restauración", "#93C5FD"),
   ("Ausente", "#E5E7EB"), ("Implante", "#FDE68A")]

/-- First-match lookup in an association list (Python `dict` access). -/
def assocFind {α : Type} : List (String × α) → String → Option α
  | [], _ => none
  | (k2, v) :: rest, k => if k2 = k then some v else assocFind rest k

/-- Python `dict` assignment: replace the value at an existing key in
place, otherwise append the new key at the end. -/
def assocSet {α : Type} : List (String × α) → String → α → List (String × α)
  | [], k, v => [(k, v)]
  | (k2, v2) :: rest, k, v =>
      if k2 = k then (k, v) :: rest else (k2, v2) :: assocSet rest k v

/-- `ODONTO_COLORS.get(estado, "#FFF")`. -/
def colorOfStatus (st : Status) : String :=
  (assocFind ODONTO_COLORS (statusName st)).getD "#FFF"

/-- The status advance of `OdontogramTab.on_click`:
`ODONTO_STATES[(ODONTO_STATES.index(current) + 1) % len(ODONTO_STATES)]`. -/
def cycleNext (st : Status) : Status :=
  ODONTO_STATES.getD ((ODONTO_STATES.indexOf st + 1) % ODONTO_STATES.length) .sano

/-- The odontogram working copy `self.data`:
`{pieza: {cara: estado}}` with insertion order preserved. -/
abbrev OdontoData := List (String × List (String × Status))

/-- `self.data.get(pieza, {}).get(cara, "Sano")`: the current status of a
surface, `Sano` when unset. -/
def getStatus (d : OdontoData) (pieza cara : String) : Status :=
  match assocFind d pieza with
  | none => .sano
  | some m =>
      match assocFind m cara with
      | none => .sano
      | some st => st

/-- The dict update of `on_click`: create the per-tooth map if absent, then
assign the surface status. -/
def setStatus (d : OdontoData) (pieza cara : String) (st : Status) : OdontoData :=
  let m := (assocFind d pieza).getD []
  assocSet d pieza (assocSet m cara st)

/-- `OdontogramTab.on_click` on a hit surface rectangle: advance the status
cyclically, store it in the working copy, and repaint the rectangle with
`ODONTO_COLORS[next_state]` (the returned string). -/
def onClick (d : OdontoData) (pieza cara : String) : OdontoData × String :=
  let nxt := cycleNext (getStatus d pieza cara)
  (setStatus d pieza cara nxt, colorOfStatus nxt)

/-- Repeated clicks on the same surface, threading the working copy. -/
def clickIter : Nat → OdontoData → String → String → OdontoData
  | 0, d, _, _ => d
  | n + 1, d, p, c => clickIter n (onClick d p c).1 p c

/-- The dentition scheme radio value (`'adulto'` / `'temporal'`). -/
inductive Esquema where
  | adulto
  | temporal
deriving DecidableEq

/-- One row of the `odontogram` table: `patient_id INTEGER PRIMARY KEY,
esquema TEXT, data_json TEXT`. -/
structure OdontoRow where
  patient : Nat
  esquema : Esquema
  data : OdontoData
deriving DecidableEq

/-- The `odontogram` table; the primary key is the patient id alone. -/
abbrev OdontoTable := List OdontoRow

/-- `OdontogramTab.save`: `INSERT INTO odontogram(patient_id, esquema,
data_json) VALUES(?,?,?) ON CONFLICT(patient_id) DO UPDATE SET
esquema=excluded.esquema, data_json=excluded.data_json`. -/
def saveOdontogram (tbl : OdontoTable) (pid : Nat) (e : Esquema) (d : OdontoData) :
    OdontoTable :=
  if tbl.any (fun r => r.patient == pid) then
    tbl.map (fun r => if r.patient = pid then ⟨pid, e, d⟩ else r)
  else
    tbl ++ [⟨pid, e, d⟩]

/-- `OdontogramTab.load`: `SELECT esquema, data_json FROM odontogram WHERE
patient_id=?`. -/
def loadOdontogram : OdontoTable → Nat → Option (Esquema × OdontoData)
  | [], _ => none
  | r :: rest, pid =>
      if r.patient = pid then some (r.esquema, r.data) else loadOdontogram rest pid

/-- The snapshot stored for one patient under one scheme, reading the store
as the spec does (one snapshot per patient per scheme): present exactly
when the patient's row carries that scheme. -/
def snapshotFor (tbl : OdontoTable) (pid : Nat) (e : Esquema) : Option OdontoData :=
  match loadOdontogram tbl pid with
  | some (e2, d) => if e2 = e then some d else none
  | none => none

/-- The snapshot of spec §8: `{ "16": {"O": "Decayed"} }` (Decayed = Caries). -/
def d16 : OdontoData := [("16", [("O", Status.caries)])]

/-! ### Association-list and store lemmas -/

theorem assocFind_assocSet_self {α : Type} (l : List (String × α)) (k : String) (v : α) :
    assocFind (assocSet l k v) k = some v := by
  induction l with
  | nil => simp [assocSet, assocFind]
  | cons hd tl ih =>
    obtain ⟨k2, v2⟩ := hd
    by_cases h : k2 = k
    · simp [assocSet, h, assocFind]
    · simp [assocSet, h, assocFind, ih]

theorem getStatus_setStatus (d : OdontoData) (p c : String) (st : Status) :
    getStatus (setStatus d p c st) p c = st := by
  unfold getStatus setStatus
  simp [assocFind_assocSet_self]

theorem getStatus_onClick (d : OdontoData) (p c : String) :
    getStatus (onClick d p c).1 p c = cycleNext (getStatus d p c) :=
  getStatus_setStatus d p c _

theorem cycleNext_five (st : Status) : cycleNext^[5] st = st := by
  cases st <;> rfl

theorem getStatus_clickIter (n : Nat) (d : OdontoData) (p c : String) :
    getStatus (clickIter n d p c) p c = cycleNext^[n] (getStatus d p c) := by
  induction n generalizing d with
  | zero => simp [clickIter]
  | succ n ih =>
    rw [clickIter, ih, getStatus_onClick, ← Function.iterate_succ_apply]

theorem load_map_replace (tbl : OdontoTable) (pid : Nat) (e : Esquema) (d : OdontoData)
    (h : tbl.any (fun r => r.patient == pid) = true) :
    loadOdontogram (tbl.map (fun r => if r.patient = pid then ⟨pid, e, d⟩ else r)) pid
      = some (e, d) := by
  induction tbl with
  | nil => simp at h
  | cons hd tl ih =>
    by_cases hh : hd.patient = pid
    · simp [loadOdontogram, hh]
    · have h2 : tl.any (fun r => r.patient == pid) = true := by
        simpa [List.any_cons, hh] using h
      simp [loadOdontogram, hh, ih h2]

theorem load_append_self (tbl : OdontoTable) (pid : Nat) (e : Esquema) (d : OdontoData)
    (h : ∀ r ∈ tbl, r.patient ≠ pid) :
    loadOdontogram (tbl ++ [⟨pid, e, d⟩]) pid = some (e, d) := by
  induction tbl with
  | nil => simp [loadOdontogram]
  | cons hd tl ih =>
    have hh : hd.patient ≠ pid := h hd (by simp)
    simp only [List.cons_append, loadOdontogram, hh, if_neg hh]
    exact ih (fun r hr => h r (by simp [hr]))

theorem load_save_self (tbl : OdontoTable) (pid : Nat) (e : Esquema) (d : OdontoData) :
    loadOdontogram (saveOdontogram tbl pid e d) pid = some (e, d) := by
  unfold saveOdontogram
  by_cases h : tbl.any (fun r => r.patient == pid) = true
  · rw [if_pos h]
    exact load_map_replace tbl pid e d h
  · rw [if_neg h]
    refine load_append_self tbl pid e d ?_
    intro r hr hc
    exact h (List.any_eq_true.mpr ⟨r, hr, by simp [hc]⟩)

theorem load_map_other (tbl : OdontoTable) (pid pid2 : Nat) (e : Esquema) (d : OdontoData)
    (h : pid2 ≠ pid) :
    loadOdontogram (tbl.map (fun r => if r.patient = pid then ⟨pid, e, d⟩ else r)) pid2
      = loadOdontogram tbl pid2 := by
  induction tbl with
  | nil => rfl
  | cons hd tl ih =>
    simp only [List.map_cons]
    by_cases hh : hd.patient = pid
    · have hne : ¬ pid = pid2 := fun hc => h hc.symm
      have hne2 : ¬ hd.patient = pid2 := by rw [hh]; exact hne
      rw [if_pos hh]
      simp [loadOdontogram, hne, hne2, ih]
    · rw [if_neg hh]
      by_cases hh2 : hd.patient = pid2
      · simp [loadOdontogram, hh2]
      · simp [loadOdontogram, hh2, ih]

theorem load_append_other (tbl : OdontoTable) (pid2 : Nat) (row : OdontoRow)
    (h : row.patient ≠ pid2) :
    loadOdontogram (tbl ++ [row]) pid2 = loadOdontogram tbl pid2 := by
  induction tbl with
  | nil => simp [loadOdontogram, h]
  | cons hd tl ih =>
    by_cases hh2 : hd.patient = pid2
    · simp [loadOdontogram, hh2]
    · simp only [List.cons_append, loadOdontogram, if_neg hh2]
      exact ih

theorem load_save_other (tbl : OdontoTable) (pid pid2 : Nat) (e : Esquema) (d : OdontoData)
    (h : pid2 ≠ pid) :
    loadOdontogram (saveOdontogram tbl pid e d) pid2 = loadOdontogram tbl pid2 := by
  unfold saveOdontogram
  by_cases hb : tbl.any (fun r => r.patient == pid) = true
  · rw [if_pos hb]
    exact load_map_other tbl pid pid2 e d h
  · rw [if_neg hb]
    exact load_append_other tbl pid2 ⟨pid, e, d⟩ (fun hc => h hc.symm)

theorem countP_map_patient (tbl : OdontoTable) (f : OdontoRow → OdontoRow)
    (hf : ∀ r, (f r).patient = r.patient) (p : Nat) :
    (tbl.map f).countP (fun r => r.patient == p)
      = tbl.countP (fun r => r.patient == p) := by
  induction tbl with
  | nil => rfl
  | cons hd tl ih =>
    simp [List.countP_cons, hf, ih]

theorem save_countP_self (tbl : OdontoTable) (pid : Nat) (e : Esquema) (d : OdontoData)
    (h : ∀ p, tbl.countP (fun r => r.patient == p) ≤ 1) :
    (saveOdontogram tbl pid e d).countP (fun r => r.patient == pid) = 1 := by
  unfold saveOdontogram
  by_cases hb : tbl.any (fun r => r.patient == pid) = true
  · rw [if_pos hb]
    have hmap : (tbl.map (fun r => if r.patient = pid then ⟨pid, e, d⟩ else r)).countP
        (fun r => r.patient == pid) = tbl.countP (fun r => r.patient == pid) := by
      refine countP_map_patient tbl _ ?_ pid
      intro r
      by_cases hr : r.patient = pid <;> simp [hr]
    rw [hmap]
    obtain ⟨r, hr, hp⟩ := List.any_eq_true.mp hb
    have hpos : 0 < tbl.countP (fun r => r.patient == pid) :=
      List.countP_pos_iff.mpr ⟨r, hr, hp⟩
    have hle := h pid
    omega
  · rw [if_neg hb]
    have hz : tbl.countP (fun r => r.patient == pid) = 0 := by
      rw [List.countP_eq_zero]
      intro r hr hc
      exact hb (List.any_eq_true.mpr ⟨r, hr, hc⟩)
    simp [List.countP_append, hz, List.countP_cons]

theorem save_countP_le (tbl : OdontoTable) (pid : Nat) (e : Esquema) (d : OdontoData)
    (h : ∀ p, tbl.countP (fun r => r.patient == p) ≤ 1) (p : Nat) :
    (saveOdontogram tbl pid e d).countP (fun r => r.patient == p) ≤ 1 := by
  unfold saveOdontogram
  by_cases hb : tbl.any (fun r => r.patient == pid) = true
  · rw [if_pos hb]
    have hmap : (tbl.map (fun r => if r.patient = pid then ⟨pid, e, d⟩ else r)).countP
        (fun r => r.patient == p) = tbl.countP (fun r => r.patient == p) := by
      refine countP_map_patient tbl _ ?_ p
      intro r
      by_cases hr : r.patient = pid <;> simp [hr]
    rw [hmap]
    exact h p
  · rw [if_neg hb]
    rw [List.countP_append]
    by_cases hp : pid = p
    · have hz : tbl.countP (fun r => r.patient == p) = 0 := by
        rw [List.countP_eq_zero]
        intro r hr hc
        refine hb (List.any_eq_true.mpr ⟨r, hr, ?_⟩)
        rw [← hp] at hc
        exact hc
      simp [hz, List.countP_cons, hp]
    · have hone : ([(⟨pid, e, d⟩ : OdontoRow)]).countP (fun r => r.patient == p) = 0 := by
        simp [List.countP_cons, hp]
      rw [hone]
      simpa using h p

/-! ### Claims C1, C2, C3 -/

/-- Claim C1, counterexample: the `odontogram` table is keyed by
`patient_id` alone, so saving patient 1's chart under the `temporal` scheme
destroys the snapshot previously stored under the `adulto` scheme — the
stored snapshot of the other scheme is NOT left unchanged by the save,
refuting the claimed per-scheme independence. -/
theorem C1_cex :
    snapshotFor (saveOdontogram [⟨1, .adulto, d16⟩] 1 .temporal []) 1 .adulto
      ≠ snapshotFor [⟨1, .adulto, d16⟩] 1 .adulto := by
  decide

/-- Claim C1 (amended): the persisted store retains at most one odontogram
snapshot per PATIENT — the scheme is stored alongside the single row, not
part of the key.  Saving replaces the patient's sole snapshot last-write-wins
regardless of scheme (a save under one scheme discards what was stored under
the other), leaves every other patient's snapshot unchanged, and preserves
the one-row-per-patient invariant, producing exactly one row for the saved
patient. -/
theorem C1_store_per_patient :
    (∀ (tbl : OdontoTable) (pid : Nat) (e : Esquema) (d : OdontoData),
        loadOdontogram (saveOdontogram tbl pid e d) pid = some (e, d)) ∧
    (∀ (tbl : OdontoTable) (pid : Nat) (e : Esquema) (d : OdontoData) (pid2 : Nat),
        pid2 ≠ pid →
        loadOdontogram (saveOdontogram tbl pid e d) pid2 = loadOdontogram tbl pid2) ∧
    (∀ (tbl : OdontoTable) (pid : Nat) (e : Esquema) (d : OdontoData),
        (∀ p, tbl.countP (fun r => r.patient == p) ≤ 1) →
        (saveOdontogram tbl pid e d).countP (fun r => r.patient == pid) = 1 ∧
        ∀ p, (saveOdontogram tbl pid e d).countP (fun r => r.patient == p) ≤ 1) :=
  ⟨fun tbl pid e d => load_save_self tbl pid e d,
   fun tbl pid e d pid2 h => load_save_other tbl pid pid2 e d h,
   fun tbl pid e d h => ⟨save_countP_self tbl pid e d h, save_countP_le tbl pid e d h⟩⟩

/-- Witness for C1 at a concrete store. -/
theorem C1_witness :
    (2 ≠ 1) ∧
    loadOdontogram (saveOdontogram [⟨1, .adulto, d16⟩] 1 .temporal []) 2
      = loadOdontogram [⟨1, .adulto, d16⟩] 2 ∧
    (saveOdontogram ([] : OdontoTable) 1 .adulto d16).countP
      (fun r => r.patient == 1) = 1 :=
  ⟨by decide,
   C1_store_per_patient.2.1 [⟨1, .adulto, d16⟩] 1 .temporal [] 2 (by decide),
   (C1_store_per_patient.2.2 [] 1 .adulto d16 (fun p => by simp)).1⟩

/-- Claim C2: a click on a (tooth, surface) replaces its status with the
successor in the fixed cyclic order Sano → Caries → Restauración → Ausente →
Implante → Sano (Healthy → Decayed → Restored → Missing → Implant → Healthy),
repaints the surface with the new status's color, and five consecutive
clicks return the surface to its original status. -/
theorem C2_cycle_status (d : OdontoData) (p c : String) :
    getStatus (onClick d p c).1 p c = cycleNext (getStatus d p c) ∧
    (onClick d p c).2 = colorOfStatus (cycleNext (getStatus d p c)) ∧
    (cycleNext .sano = .caries ∧ cycleNext .caries = .restauracion ∧
     cycleNext .restauracion = .ausente ∧ cycleNext .ausente = .implante ∧
     cycleNext .implante = .sano) ∧
    getStatus (clickIter 5 d p c) p c = getStatus d p c := by
  refine ⟨getStatus_onClick d p c, rfl, by decide, ?_⟩
  rw [getStatus_clickIter]
  exact cycleNext_five (getStatus d p c)

/-- Claim C3: persisting the tooth-chart working copy and reloading it is a
lossless round trip — the reloaded snapshot is exactly the saved one, so
every set entry survives verbatim and no unset entry is materialized; for
the snapshot `{ "16": {"O": "Caries"} }`, `get_status(16, "O")` yields
Caries (Decayed) and `get_status(16, "M")` yields Sano (Healthy). -/
theorem C3_roundtrip (tbl : OdontoTable) (pid : Nat) (e : Esquema) (d : OdontoData) :
    loadOdontogram (saveOdontogram tbl pid e d) pid = some (e, d) ∧
    getStatus d16 "16" "O" = .caries ∧
    getStatus d16 "16" "M" = .sano :=
  ⟨load_save_self tbl pid e d, by decide, by decide⟩

/-! ## Periodontics of `codigo_dental_final.py` (`PeriodonticsTab`) -/

/-- `self.sitios = ["MB", "B", "DB", "ML", "L", "DL"]` — the six standard
sites per tooth. -/
def sitios6 : List String := ["MB", "B", "DB", "ML", "L", "DL"]

/-- The per-tooth widget column built by `_build_tooth_column`: six PS
cells, one MG cell, six NI cells, six bleeding and six suppuration
checkboxes, one MOV cell and one note cell, all holding raw text /
booleans. -/
structure ToothVals where
  ps : Fin 6 → String
  mg : String
  ni : Fin 6 → String
  ss : Fin 6 → Bool
  sup : Fin 6 → Bool
  mov : String
  nota : String

/-- `self.widgets`: the tooth id → column map, in insertion order. -/
abbrev PGrid := List (String × ToothVals)

/-- One row of the `periodontics` table as written by `save_all_to_db`. -/
structure PerioRow1 where
  patient : Nat
  pieza : String
  sitioCode : String
  ps : ℚ
  mg : ℚ
  ni : ℚ
  ss : Nat
  sup : Nat
  mov : ℤ
  nota : String
deriving DecidableEq

/-- The row `save_all_to_db` builds for tooth `pieza` at site index `i`:
`ni = ps - mg if ni_raw == "N/A" else self._to_float(ni_raw)`. -/
def rowFor (pid : Nat) (pieza : String) (vals : ToothVals) (i : Fin 6) : PerioRow1 :=
  { patient := pid
    pieza := pieza
    sitioCode := sitios6.getD i.val ""
    ps := to_float (vals.ps i)
    mg := to_float vals.mg
    ni := if vals.ni i = "N/A" then to_float (vals.ps i) - to_float vals.mg
          else to_float (vals.ni i)
    ss := if vals.ss i then 1 else 0
    sup := if vals.sup i then 1 else 0
    mov := to_int vals.mov
    nota := vals.nota }

/-- `PeriodonticsTab.save_all_to_db`: the full list of rows upserted
(`INSERT OR REPLACE`) for the patient — one per tooth per site. -/
def saveAllRows (pid : Nat) (g : PGrid) : List PerioRow1 :=
  g.flatMap (fun pv => (List.finRange 6).map (fun i => rowFor pid pv.1 pv.2 i))

/-- The per-site attachment level used by `calculate_metrics` (the same
expression as in `save_all_to_db`): `ps - mg` while the cell still holds
the `"N/A"` sentinel, the parsed cell otherwise. -/
def siteNI (mgq : ℚ) (psText niText : String) : ℚ :=
  if niText = "N/A" then to_float psText - mgq else to_float niText

/-- The running accumulators of `calculate_metrics`:
`total_ps`, `total_ni`, `sas`, `sites`. -/
structure Totals where
  totalPS : ℚ
  totalNI : ℚ
  sas : Nat
  sites : Nat
deriving DecidableEq

/-- The inner `for i in range(6)` loop body of `calculate_metrics` folded
over the six sites of one tooth. -/
def foldTooth (acc : Totals) (pv : String × ToothVals) : Totals :=
  (List.finRange 6).foldl
    (fun a i =>
      { totalPS := a.totalPS + to_float (pv.2.ps i)
        totalNI := a.totalNI + siteNI (to_float pv.2.mg) (pv.2.ps i) (pv.2.ni i)
        sas := a.sas + (if pv.2.ss i then 1 else 0)
        sites := a.sites + 1 }) acc

/-- The accumulation over `self.widgets.items()` in `calculate_metrics`. -/
def metricTotals (g : PGrid) : Totals :=
  g.foldl foldTooth ⟨0, 0, 0, 0⟩

/-- The number of iterated sites. -/
def sitesCount (g : PGrid) : Nat := (metricTotals g).sites

/-- A displayed metric: `noData` models the `"0"` sentinel string written
when `sites` is zero; `val q` the formatted mean/percentage value. -/
inductive MetricOut where
  | noData
  | val (q : ℚ)
deriving DecidableEq

/-- The four output fields set by `calculate_metrics`. -/
structure PerioMetrics where
  profMedia : MetricOut
  nivelInsercionMedio : MetricOut
  pctSAS : MetricOut
  pctPlaca : String
deriving DecidableEq

/-- `PeriodonticsTab.calculate_metrics`: each mean/percentage is computed
only under `if sites`, the sentinel being written otherwise; plaque is
always the literal `"N/A"`. -/
def calculateMetrics (g : PGrid) : PerioMetrics :=
  let t := metricTotals g
  { profMedia := if t.sites ≠ 0 then .val (t.totalPS / (t.sites : ℚ)) else .noData
    nivelInsercionMedio := if t.sites ≠ 0 then .val (t.totalNI / (t.sites : ℚ)) else .noData
    pctSAS := if t.sites ≠ 0 then .val ((t.sas : ℚ) / (t.sites : ℚ) * 100) else .noData
    pctPlaca := "N/A" }

/-- One `sitios` element of an `import_file` document entry. -/
structure ImportSite where
  sitioCode : String
  ps : String
  ni : String
  ss : Bool
  sup : Bool

/-- One `datos` element of an `import_file` document. -/
structure ImportEntry where
  pieza : String
  mg : String
  mov : String
  nota : String
  sitioEntries : List ImportSite

/-- Pointwise update of one of the six text cells. -/
def updAt (f : Fin 6 → String) (n : Nat) (v : String) : Fin 6 → String :=
  fun j => if j.val = n then v else f j

/-- Pointwise update of one of the six boolean cells. -/
def updAtB (f : Fin 6 → Bool) (n : Nat) (v : Bool) : Fin 6 → Bool :=
  fun j => if j.val = n then v else f j

/-- Site application inside `import_file`: an unknown site name is skipped
(`if s["sitio"] not in self.sitios: continue`), a known one overwrites the
cells at `self.sitios.index(...)`. -/
def applySite (vals : ToothVals) (s : ImportSite) : ToothVals :=
  if s.sitioCode ∈ sitios6 then
    let idx := sitios6.indexOf s.sitioCode
    { vals with
      ps := updAt vals.ps idx s.ps
      ni := updAt vals.ni idx s.ni
      ss := updAtB vals.ss idx s.ss
      sup := updAtB vals.sup idx s.sup }
  else vals

/-- One document entry in `import_file`: an unknown tooth id is skipped
(`if p not in self.widgets: continue`); otherwise mg/mov/nota are set and
each listed site applied in order. -/
def applyImportEntry (g : PGrid) (e : ImportEntry) : PGrid :=
  match assocFind g e.pieza with
  | none => g
  | some vals =>
      assocSet g e.pieza
        (e.sitioEntries.foldl applySite
          { vals with mg := e.mg, mov := e.mov, nota := e.nota })

/-- `PeriodonticsTab.import_file`: apply the document entries in order. -/
def importFile (g : PGrid) (doc : List ImportEntry) : PGrid :=
  doc.foldl applyImportEntry g

/-! ### Claims C4, C7, C8, C9 -/

/-- Claim C4: whenever an attachment-level cell still holds the `"N/A"`
sentinel (not explicitly supplied), the value used for it both by
`save_all_to_db` (the persisted row) and by `calculate_metrics` (via
`siteNI`) is probing depth minus gingival margin; in particular probing
depth `"3.5"` with margin `"1"` yields attachment level `2.5`. -/
theorem C4_ni_derived (pid : Nat) (g : PGrid) (pieza : String) (vals : ToothVals)
    (h1 : (pieza, vals) ∈ g) (i : Fin 6) (h2 : vals.ni i = "N/A") :
    (rowFor pid pieza vals i).ni = to_float (vals.ps i) - to_float vals.mg ∧
    rowFor pid pieza vals i ∈ saveAllRows pid g ∧
    siteNI (to_float vals.mg) (vals.ps i) (vals.ni i)
      = to_float (vals.ps i) - to_float vals.mg ∧
    to_float "3.5" - to_float "1" = 5 / 2 := by
  refine ⟨by simp [rowFor, h2], ?_, by simp [siteNI, h2], ?_⟩
  · exact List.mem_flatMap.mpr
      ⟨(pieza, vals), h1, List.mem_map.mpr ⟨i, List.mem_finRange i, rfl⟩⟩
  · rw [to_float_eval "3.5" 35 1 (by decide), to_float_eval "1" 1 0 (by decide)]
    norm_num

/-- The §8 tooth column: all probing depths `"3.5"`, margin `"1"`,
attachment levels left at the `"N/A"` sentinel. -/
def vals4 : ToothVals :=
  { ps := fun _ => "3.5"
    mg := "1"
    ni := fun _ => "N/A"
    ss := fun _ => false
    sup := fun _ => false
    mov := "0"
    nota := "" }

/-- Witness for C4: the persisted attachment level for tooth 16 is 2.5. -/
theorem C4_witness :
    (rowFor 1 "16" vals4 ⟨0, by decide⟩).ni = 5 / 2 := by
  have h := C4_ni_derived 1 [("16", vals4)] "16" vals4 (by simp) ⟨0, by decide⟩ rfl
  exact h.1.trans h.2.2.2

/-- Claim C7: `calculate_metrics` never divides when the iterated site
count is zero — the three mean/percentage outputs are then the defined
sentinel (`noData`, the code's `"0"` string) and plaque is always the
literal `"N/A"`; conversely every computed value arises from a strictly
positive site count. -/
theorem C7_no_division_by_zero :
    (∀ g : PGrid, sitesCount g = 0 →
        calculateMetrics g = ⟨.noData, .noData, .noData, "N/A"⟩) ∧
    (∀ (g : PGrid) (q : ℚ), (calculateMetrics g).profMedia = .val q →
        0 < sitesCount g) ∧
    (∀ (g : PGrid) (q : ℚ), (calculateMetrics g).nivelInsercionMedio = .val q →
        0 < sitesCount g) ∧
    (∀ (g : PGrid) (q : ℚ), (calculateMetrics g).pctSAS = .val q →
        0 < sitesCount g) := by
  refine ⟨?_, ?_, ?_, ?_⟩
  · intro g h
    simp only [sitesCount] at h
    simp [calculateMetrics, h]
  all_goals
    intro g q h
    simp only [calculateMetrics] at h
    by_cases hz : (metricTotals g).sites ≠ 0
    · simpa [sitesCount, Nat.pos_iff_ne_zero] using hz
    · simp [hz] at h

/-- Witness for C7: the empty grid yields the sentinel everywhere. -/
theorem C7_witness :
    sitesCount ([] : PGrid) = 0 ∧
    calculateMetrics ([] : PGrid) = ⟨.noData, .noData, .noData, "N/A"⟩ :=
  ⟨rfl, C7_no_division_by_zero.1 [] rfl⟩

/-- Claim C8: `import_file` applies a document entry by entry — an entry
with an unknown tooth id is skipped without aborting (the import of the
remaining entries is unchanged), an unknown site name inside a known tooth
is likewise skipped, and each remaining entry is applied in order. -/
theorem C8_import_skips :
    (∀ (g : PGrid) (e : ImportEntry) (rest : List ImportEntry),
        assocFind g e.pieza = none → importFile g (e :: rest) = importFile g rest) ∧
    (∀ (vals : ToothVals) (s : ImportSite),
        s.sitioCode ∉ sitios6 → applySite vals s = vals) ∧
    (∀ (g : PGrid) (e : ImportEntry) (rest : List ImportEntry),
        importFile g (e :: rest) = importFile (applyImportEntry g e) rest) := by
  refine ⟨?_, ?_, fun g e rest => rfl⟩
  · intro g e rest h
    simp [importFile, applyImportEntry, h]
  · intro vals s h
    simp [applySite, h]

/-- A one-tooth grid holding the `clear_form` defaults for tooth 16. -/
def g8 : PGrid :=
  [("16", { ps := fun _ => "0", mg := "0", ni := fun _ => "N/A",
            ss := fun _ => false, sup := fun _ => false, mov := "0", nota := "" })]

/-- A document entry referencing the unknown tooth id `"99"`. -/
def e99 : ImportEntry := ⟨"99", "1", "2", "x", []⟩

/-- An entry site with an unknown site name. -/
def sXX : ImportSite := ⟨"XX", "4", "N/A", true, false⟩

/-- Witness for C8: importing the `"99"` entry changes nothing, and an
unknown site name leaves the tooth column untouched. -/
theorem C8_witness :
    importFile g8 [e99] = importFile g8 [] ∧
    applySite vals4 sXX = vals4 :=
  ⟨C8_import_skips.1 g8 e99 [] rfl,
   C8_import_skips.2.1 vals4 sXX (by decide)⟩

/-- Claim C9: the single-file numeric parsers are total and silently
coercing — whenever a cell text does not parse as a float, `_to_float`
yields `0` and `_to_int` yields `0`, so `save_all_to_db` persists the cell
as zero (shown here for the probing-depth, margin and mobility fields of
the written row) and `calculate_metrics` averages it as zero (the `siteNI`
contribution of a malformed explicit attachment level is `0`); nothing is
rejected and no error is raised. -/
theorem C9_total_coercing :
    (∀ s : String, parseFloatQ s = none → to_float s = 0 ∧ to_int s = 0) ∧
    (∀ (pid : Nat) (pieza : String) (vals : ToothVals) (i : Fin 6),
        parseFloatQ (vals.ps i) = none → (rowFor pid pieza vals i).ps = 0) ∧
    (∀ (pid : Nat) (pieza : String) (vals : ToothVals) (i : Fin 6),
        parseFloatQ vals.mg = none → (rowFor pid pieza vals i).mg = 0) ∧
    (∀ (pid : Nat) (pieza : String) (vals : ToothVals) (i : Fin 6),
        parseFloatQ vals.mov = none → (rowFor pid pieza vals i).mov = 0) ∧
    (∀ (mgq : ℚ) (psText niText : String), niText ≠ "N/A" →
        parseFloatQ niText = none → siteNI mgq psText niText = 0) := by
  have hf : ∀ s : String, parseFloatQ s = none → to_float s = 0 := by
    intro s h
    simp [to_float, h]
  refine ⟨fun s h => ⟨hf s h, by simp [to_int, h]⟩, ?_, ?_, ?_, ?_⟩
  · intro pid pieza vals i h
    simp [rowFor, hf _ h]
  · intro pid pieza vals i h
    simp [rowFor, hf _ h]
  · intro pid pieza vals i h
    simp [rowFor, to_int, h]
  · intro mgq psText niText hne h
    simp [siteNI, hne, hf _ h]

/-- A tooth column whose texts are all malformed. -/
def valsBad : ToothVals :=
  { ps := fun _ => "abc"
    mg := "x1"
    ni := fun _ => "caries"
    ss := fun _ => true
    sup := fun _ => false
    mov := "two"
    nota := "" }

/-- Witness for C9: the malformed column is stored as zeros. -/
theorem C9_witness :
    to_float "abc" = 0 ∧ to_int "abc" = 0 ∧
    (rowFor 1 "16" valsBad ⟨0, by decide⟩).ps = 0 ∧
    (rowFor 1 "16" valsBad ⟨0, by decide⟩).mov = 0 ∧
    siteNI 3 "abc" "caries" = 0 :=
  ⟨(C9_total_coercing.1 "abc" (by decide)).1,
   (C9_total_coercing.1 "abc" (by decide)).2,
   C9_total_coercing.2.1 1 "16" valsBad ⟨0, by decide⟩ (by decide),
   C9_total_coercing.2.2.2.1 1 "16" valsBad ⟨0, by decide⟩ (by decide),
   C9_total_coercing.2.2.2.2 3 "abc" "caries" (by decide) (by decide)⟩

/-! ## `sistema_odontologico.py` (`DentalManagementSystem`) -/

/-- The fixed permanent-dentition tooth set `all_teeth` used by the
periodontogram (also the keys of `tooth_objects`). -/
def allTeethSO : List Nat :=
  [18, 17, 16, 15, 14, 13, 12, 11, 21, 22, 23, 24, 25, 26, 27, 28,
   48, 47, 46, 45, 44, 43, 42, 41, 31, 32, 33, 34, 35, 36, 37, 38]

/-- `str.replace('.', '', 1)`: drop the first dot only. -/
def removeFirstDot : List Char → List Char
  | [] => []
  | c :: r => if c = '.' then r else c :: removeFirstDot r

/-- `str.isdigit` on the ASCII fragment: nonempty and all decimal digits. -/
def isDigitStr (l : List Char) : Bool :=
  !l.isEmpty && l.all Char.isDigit

/-- A probing-depth / margin / attachment cell fails the
`save_perio_measurements` validation when it is nonempty and
`s.replace('.', '', 1).isdigit()` is false. -/
def numFails (s : String) : Bool :=
  (s != "") && !(isDigitStr (removeFirstDot s.toList))

/-- A mobility cell fails validation when nonempty and `isdigit()` is
false. -/
def movFails (s : String) : Bool :=
  (s != "") && !(isDigitStr s.toList)

/-- The per-tooth slice of `perio_entries`: six text cells, four
checkbutton booleans, mobility and furcation. -/
structure PerioTooth where
  psB : String
  mgB : String
  niB : String
  psL : String
  mgL : String
  niL : String
  bleedB : Bool
  suppB : Bool
  bleedL : Bool
  suppL : Bool
  mov : String
  furc : String
deriving DecidableEq

/-- The validated fields, in the order the validation loop checks them;
the `ValueError` message names them `PS Bucal`, `MG Bucal`, `NI Bucal`,
`PS Lingual`, `MG Lingual`, `NI Lingual` and `Movilidad`. -/
inductive FieldTag where
  | psB
  | mgB
  | niB
  | psL
  | mgL
  | niL
  | mov
deriving DecidableEq

/-- Whether the named field of a tooth fails its validation check. -/
def fieldFails (v : PerioTooth) : FieldTag → Bool
  | .psB => numFails v.psB
  | .mgB => numFails v.mgB
  | .niB => numFails v.niB
  | .psL => numFails v.psL
  | .mgL => numFails v.mgL
  | .niL => numFails v.niL
  | .mov => movFails v.mov

/-- The `raise ValueError` chain of the validation loop for one tooth:
the first failing field wins, the error names the tooth and the field. -/
def checkTooth (t : Nat) (v : PerioTooth) : Option (Nat × FieldTag) :=
  if numFails v.psB then some (t, .psB)
  else if numFails v.mgB then some (t, .mgB)
  else if numFails v.niB then some (t, .niB)
  else if numFails v.psL then some (t, .psL)
  else if numFails v.mgL then some (t, .mgL)
  else if numFails v.niL then some (t, .niL)
  else if movFails v.mov then some (t, .mov)
  else none

/-- The validation loop over `all_teeth`: the error of the first failing
tooth, if any. -/
def firstErrAux (g : Nat → PerioTooth) : List Nat → Option (Nat × FieldTag)
  | [] => none
  | t :: ts =>
      match checkTooth t (g t) with
      | some e => some e
      | none => firstErrAux g ts

/-- The InvalidMeasurement error of the spec's taxonomy, identifying the
offending tooth and field (the code shows
`Valor no numérico para <field> del diente <tooth>`). -/
inductive PerioErr where
  | invalidMeasurement (tooth : Nat) (field : FieldTag)
deriving DecidableEq

/-- One row of the `periodontogram` table. -/
structure PerioRow2 where
  patient : Nat
  tooth : Nat
  psB : Option ℚ
  mgB : Option ℚ
  niB : Option ℚ
  psL : Option ℚ
  mgL : Option ℚ
  niL : Option ℚ
  bleedB : Bool
  suppB : Bool
  bleedL : Bool
  suppL : Bool
  mobility : Option Nat
  furcation : String
deriving DecidableEq

/-- `float(x) if x else None` on a cell that already passed validation
(validation guarantees the parse succeeds). -/
def optFloat (s : String) : Option ℚ :=
  if s = "" then none else some (to_float s)

/-- `int(mobility) if mobility else None` on a validated digit string. -/
def optMov (s : String) : Option Nat :=
  if s = "" then none else some (digitsToNat s.toList)

/-- The row inserted by `save_perio_measurements` for one tooth. -/
def rowFor2 (pid : Nat) (g : Nat → PerioTooth) (t : Nat) : PerioRow2 :=
  { patient := pid
    tooth := t
    psB := optFloat (g t).psB
    mgB := optFloat (g t).mgB
    niB := optFloat (g t).niB
    psL := optFloat (g t).psL
    mgL := optFloat (g t).mgL
    niL := optFloat (g t).niL
    bleedB := (g t).bleedB
    suppB := (g t).suppB
    bleedL := (g t).bleedL
    suppL := (g t).suppL
    mobility := optMov (g t).mov
    furcation := (g t).furc }

/-- `DELETE FROM periodontogram WHERE patient_id = ?`. -/
def deletePatient (pid : Nat) (db : List PerioRow2) : List PerioRow2 :=
  db.filter (fun r => r.patient != pid)

/-- `DentalManagementSystem.save_perio_measurements`: validate every tooth
first; on the first failure show the warning and return, leaving the store
untouched; only when everything validates delete the patient's rows and
reinsert all 32 teeth. -/
def savePerioMeasurements (g : Nat → PerioTooth) (db : List PerioRow2) (pid : Nat) :
    Option PerioErr × List PerioRow2 :=
  match firstErrAux g allTeethSO with
  | some (t, f) => (some (.invalidMeasurement t f), db)
  | none => (none, deletePatient pid db ++ allTeethSO.map (rowFor2 pid g))

/-- `self.tooth_colors`: status name → canvas color. -/
def toothColorsSO : List (String × String) :=
  [("Sano", "#FFFFFF"), ("Caries", "#FF6347"), ("Restauración", "#4169E1"),
   ("Ausente", "#696969"), ("Implante", "#FFD700"), ("Corona", "#9370DB"),
   ("Endodoncia", "#FF69B4"), ("A-Extracción", "#FF0000")]

/-- `self.tooth_colors.get(status, '#FFFFFF')`. -/
def colorOfSO (status : String) : String :=
  (assocFind toothColorsSO status).getD "#FFFFFF"

/-- The odontogram canvas state: surface rectangles keyed by
(tooth number, surface code), holding their fill color — the system of
record for statuses in this variant. -/
abbrev Canvas := List ((Nat × String) × String)

/-- The five surface keys of `create_tooth_surfaces`. -/
def surfacesSO : List String := ["O", "M", "D", "V", "P"]

/-- `DentalManagementSystem.apply_surface_status`:
`if tooth_number in self.tooth_objects and surface in
self.tooth_objects[tooth_number]:` recolor the rectangle; otherwise the
call does nothing. -/
def applySurfaceStatus (c : Canvas) (t : Nat) (surf status : String) : Canvas :=
  if c.any (fun e => decide (e.1 = (t, surf))) then
    c.map (fun e => if e.1 = (t, surf) then (e.1, colorOfSO status) else e)
  else c

/-- The reset loop of `load_odontogram`: all fills back to white. -/
def whitenAll (c : Canvas) : Canvas := c.map (fun e => (e.1, "white"))

/-- `DentalManagementSystem.load_odontogram`: whiten everything, then
recolor each stored (tooth, status, face) row, skipping rows whose tooth
or face is not on the canvas. -/
def loadOdontogramSO (c : Canvas) (rows : List (Nat × String × String)) : Canvas :=
  rows.foldl (fun acc r => applySurfaceStatus acc r.1 r.2.2 r.2.1) (whitenAll c)

/-- The canvas as drawn by `draw_odontogram`: every tooth × surface white. -/
def initialCanvas : Canvas :=
  allTeethSO.flatMap (fun t => surfacesSO.map (fun srf => ((t, srf), "white")))

/-- The InvalidTooth error of the spec's taxonomy. -/
inductive OdontoErr where
  | invalidTooth (t : Nat)
deriving DecidableEq

/-- Following the spec's words for §4.1 `set_status` (comparison
definition, not from the code): a status assignment to a tooth id outside
the active scheme's fixed set fails with an InvalidTooth error. -/
def applySurfaceStatusSpec (c : Canvas) (t : Nat) (surf status : String) :
    Except OdontoErr Canvas :=
  if t ∈ allTeethSO then
    .ok (c.map (fun e => if e.1 = (t, surf) then (e.1, colorOfSO status) else e))
  else .error (.invalidTooth t)

/-! ### Validation and canvas lemmas -/

theorem checkTooth_some_sound (t t2 : Nat) (v : PerioTooth) (f : FieldTag)
    (h : checkTooth t v = some (t2, f)) : t2 = t ∧ fieldFails v f = true := by
  unfold checkTooth at h
  split_ifs at h with h1 h2 h3 h4 h5 h6 h7 <;>
    first
    | (simp only [Option.some.injEq, Prod.mk.injEq] at h
       obtain ⟨ht, hf⟩ := h
       subst ht
       subst hf
       exact ⟨rfl, by assumption⟩)
    | simp at h

theorem checkTooth_ne_none_of_fail (t : Nat) (v : PerioTooth) (f : FieldTag)
    (h : fieldFails v f = true) : checkTooth t v ≠ none := by
  unfold checkTooth
  cases f <;> simp only [fieldFails] at h <;> split_ifs <;> simp_all

theorem firstErrAux_sound (g : Nat → PerioTooth) (l : List Nat) (t : Nat) (f : FieldTag)
    (h : firstErrAux g l = some (t, f)) :
    ∃ t0 ∈ l, checkTooth t0 (g t0) = some (t, f) := by
  induction l with
  | nil => simp [firstErrAux] at h
  | cons hd tl ih =>
    cases hc : checkTooth hd (g hd) with
    | some e =>
      simp only [firstErrAux, hc] at h
      exact ⟨hd, by simp, by rw [hc, h]⟩
    | none =>
      simp only [firstErrAux, hc] at h
      obtain ⟨t0, ht0, hcheck⟩ := ih h
      exact ⟨t0, by simp [ht0], hcheck⟩

theorem firstErrAux_ne_none (g : Nat → PerioTooth) (l : List Nat) (t : Nat)
    (ht : t ∈ l) (h : checkTooth t (g t) ≠ none) :
    firstErrAux g l ≠ none := by
  induction l with
  | nil => simp at ht
  | cons hd tl ih =>
    rcases List.mem_cons.mp ht with rfl | htl
    · cases hc : checkTooth t (g t) with
      | none => exact absurd hc h
      | some e => simp [firstErrAux, hc]
    · cases hc : checkTooth hd (g hd) with
      | some e => simp [firstErrAux, hc]
      | none => simpa [firstErrAux, hc] using ih htl

theorem firstErrAux_none_of_all (g : Nat → PerioTooth) (l : List Nat)
    (h : ∀ t ∈ l, checkTooth t (g t) = none) : firstErrAux g l = none := by
  induction l with
  | nil => rfl
  | cons hd tl ih =>
    simp only [firstErrAux, h hd (by simp)]
    exact ih (fun t ht => h t (by simp [ht]))

theorem removeFirstDot_digits (l : List Char)
    (h : ∀ c ∈ removeFirstDot l, Char.isDigit c) :
    (∀ c ∈ l, Char.isDigit c) ∨
    ∃ a b, l = a ++ '.' :: b ∧ (∀ c ∈ a, Char.isDigit c) ∧ (∀ c ∈ b, Char.isDigit c) := by
  induction l with
  | nil => exact Or.inl (by simp)
  | cons c r ih =>
    by_cases hc : c = '.'
    · subst hc
      right
      refine ⟨[], r, by simp, by simp, ?_⟩
      intro x hx
      exact h x (by simpa [removeFirstDot] using hx)
    · have hcr : removeFirstDot (c :: r) = c :: removeFirstDot r := by
        simp [removeFirstDot, hc]
      have hcd : Char.isDigit c := h c (by rw [hcr]; simp)
      have hr : ∀ x ∈ removeFirstDot r, Char.isDigit x := by
        intro x hx
        exact h x (by rw [hcr]; simp [hx])
      rcases ih hr with hall | ⟨a, b, heq, hada, hbd⟩
      · left
        intro x hx
        rcases List.mem_cons.mp hx with rfl | hxr
        · exact hcd
        · exact hall x hxr
      · right
        refine ⟨c :: a, b, by simp [heq], ?_, hbd⟩
        intro x hx
        rcases List.mem_cons.mp hx with rfl | hxa
        · exact hcd
        · exact hada x hxa

theorem removeFirstDot_no_dot_append (a b : List Char) (h : ∀ c ∈ a, c ≠ '.') :
    removeFirstDot (a ++ '.' :: b) = a ++ b := by
  induction a with
  | nil => simp [removeFirstDot]
  | cons c r ih =>
    have hc : c ≠ '.' := h c (by simp)
    simp only [List.cons_append, removeFirstDot, if_neg hc]
    exact congrArg (List.cons c) (ih (fun x hx => h x (by simp [hx])))

theorem takeWhile_digits_all (l : List Char) (h : ∀ c ∈ l, Char.isDigit c) :
    l.takeWhile Char.isDigit = l ∧ l.dropWhile Char.isDigit = [] := by
  induction l with
  | nil => simp
  | cons c r ih =>
    have hc := h c (by simp)
    have hr := ih (fun x hx => h x (by simp [hx]))
    simp [List.takeWhile_cons, List.dropWhile_cons, hc, hr.1, hr.2]

theorem takeWhile_digits_append (a b : List Char) (h : ∀ c ∈ a, Char.isDigit c) :
    (a ++ '.' :: b).takeWhile Char.isDigit = a ∧
    (a ++ '.' :: b).dropWhile Char.isDigit = '.' :: b := by
  have hdot : Char.isDigit '.' = false := by decide
  induction a with
  | nil => simp [List.takeWhile_cons, List.dropWhile_cons, hdot]
  | cons c r ih =>
    have hc := h c (by simp)
    have hr := ih (fun x hx => h x (by simp [hx]))
    simp [List.takeWhile_cons, List.dropWhile_cons, hc, hr.1, hr.2]

theorem parseUnsigned_all_digits (l : List Char) (hne : l ≠ [])
    (h : ∀ c ∈ l, Char.isDigit c) :
    parseUnsigned l = some ((digitsToNat l, 0), []) := by
  obtain ⟨h1, h2⟩ := takeWhile_digits_all l h
  have hie : l.isEmpty = false := by
    cases l with
    | nil => exact absurd rfl hne
    | cons c r => rfl
  simp [parseUnsigned, h1, h2, hie]

theorem parseUnsigned_with_dot (a b : List Char) (ha : ∀ c ∈ a, Char.isDigit c)
    (hb : ∀ c ∈ b, Char.isDigit c) (hne : ¬(a = [] ∧ b = [])) :
    parseUnsigned (a ++ '.' :: b) = some ((digitsToNat (a ++ b), b.length), []) := by
  obtain ⟨h1, h2⟩ := takeWhile_digits_append a b ha
  obtain ⟨h3, h4⟩ := takeWhile_digits_all b hb
  have hie : (a.isEmpty && b.isEmpty) = false := by
    cases a with
    | nil =>
      cases b with
      | nil => exact absurd ⟨rfl, rfl⟩ hne
      | cons c r => rfl
    | cons c r => rfl
  simp [parseUnsigned, h1, h2, h3, h4, hie]

theorem parseRep_of_digits (s : String)
    (h : isDigitStr (removeFirstDot s.toList) = true) : parseRep s ≠ none := by
  have hparts : (removeFirstDot s.toList).isEmpty = false ∧
      (removeFirstDot s.toList).all Char.isDigit = true := by
    constructor
    · cases hh : (removeFirstDot s.toList).isEmpty
      · rfl
      · rw [isDigitStr, hh] at h
        simp at h
    · cases hh : (removeFirstDot s.toList).all Char.isDigit
      · rw [isDigitStr, hh] at h
        simp at h
      · rfl
  have hdig : ∀ c ∈ removeFirstDot s.toList, Char.isDigit c := by
    intro c hc
    exact List.all_eq_true.mp hparts.2 c hc
  have hne0 : removeFirstDot s.toList ≠ [] := by
    intro hc
    have := hparts.1
    rw [hc] at this
    simp at this
  rcases removeFirstDot_digits s.toList hdig with hall | ⟨a, b, heq, ha, hb⟩
  · have hlne : s.toList ≠ [] := by
      intro hc
      apply hne0
      rw [hc]
      rfl
    cases hl : s.toList with
    | nil => exact absurd hl hlne
    | cons c r =>
      have hallcr : ∀ x ∈ (c :: r : List Char), Char.isDigit x := by
        rw [← hl]
        exact hall
      have hcd : Char.isDigit c := hallcr c (by simp)
      have hcm : ¬(c = '-') := by
        intro hcc
        rw [hcc] at hcd
        exact absurd hcd (by decide)
      have hcp : ¬(c = '+') := by
        intro hcc
        rw [hcc] at hcd
        exact absurd hcd (by decide)
      have hpu := parseUnsigned_all_digits (c :: r) (by simp) hallcr
      have hl2 : s.data = c :: r := hl
      simp [parseRep, hl2, hcm, hcp, parseBody, hpu, parseExpTail]
  · have hrfd : removeFirstDot s.toList = a ++ b := by
      rw [heq]
      refine removeFirstDot_no_dot_append a b ?_
      intro c hc hcc
      have := ha c hc
      rw [hcc] at this
      exact absurd this (by decide)
    have hnab : ¬(a = [] ∧ b = []) := by
      rintro ⟨h1, h2⟩
      apply hne0
      rw [hrfd, h1, h2]
      rfl
    cases ha2 : a with
    | nil =>
      subst ha2
      have hl : s.toList = '.' :: b := by
        rw [heq]
        rfl
      have hpu := parseUnsigned_with_dot [] b (by simp) hb hnab
      have hdm : ¬(('.' : Char) = '-') := by decide
      have hdp : ¬(('.' : Char) = '+') := by decide
      simp only [List.nil_append] at hpu
      have hl2 : s.data = '.' :: b := hl
      simp [parseRep, hl2, hdm, hdp, parseBody, hpu, parseExpTail]
    | cons c a2 =>
      subst ha2
      have hl : s.toList = c :: (a2 ++ '.' :: b) := by
        rw [heq]
        rfl
      have hcd : Char.isDigit c := ha c (by simp)
      have hcm : ¬(c = '-') := by
        intro hcc
        rw [hcc] at hcd
        exact absurd hcd (by decide)
      have hcp : ¬(c = '+') := by
        intro hcc
        rw [hcc] at hcd
        exact absurd hcd (by decide)
      have hpu := parseUnsigned_with_dot (c :: a2) b ha hb hnab
      simp only [List.cons_append] at hpu
      have hl2 : s.data = c :: (a2 ++ '.' :: b) := hl
      simp [parseRep, hl2, hcm, hcp, parseBody, hpu, parseExpTail]

theorem applySurfaceStatus_not_found (c : Canvas) (t : Nat) (surf status : String)
    (h : ∀ e ∈ c, e.1.1 ∈ allTeethSO) (ht : t ∉ allTeethSO) :
    applySurfaceStatus c t surf status = c := by
  have hany : c.any (fun e => decide (e.1 = (t, surf))) = false := by
    rw [List.any_eq_false]
    intro e he
    simp only [decide_eq_true_eq]
    intro hc
    apply ht
    have hmem := h e he
    rw [hc] at hmem
    exact hmem
  simp [applySurfaceStatus, hany]

/-! ### Claims C5, C6, C10 -/

/-- Claim C5: `save_perio_measurements` validates every field before
touching any state — a nonempty probing-depth or gingival-margin cell whose
text does not parse as a number fails the numeric check (`numFails`), a
nonempty mobility cell that is not a digit string fails the integer check
(`movFails`), and whenever any checked field of any tooth fails, the save
returns an InvalidMeasurement error identifying an offending tooth and
field, with the persisted table returned exactly as it was (the delete and
reinsert are never reached) and the in-memory grid untouched. -/
theorem C5_validation :
    (∀ s : String, s ≠ "" → parseFloatQ s = none → numFails s = true) ∧
    (∀ s : String, s ≠ "" → isDigitStr s.toList = false → movFails s = true) ∧
    (∀ (g : Nat → PerioTooth) (db : List PerioRow2) (pid t : Nat) (f : FieldTag),
        t ∈ allTeethSO → fieldFails (g t) f = true →
        ∃ t2 f2,
          savePerioMeasurements g db pid
            = (some (PerioErr.invalidMeasurement t2 f2), db) ∧
          t2 ∈ allTeethSO ∧ fieldFails (g t2) f2 = true) := by
  refine ⟨?_, ?_, ?_⟩
  · intro s h1 h2
    have hd : isDigitStr (removeFirstDot s.toList) = false := by
      cases hh : isDigitStr (removeFirstDot s.toList)
      · rfl
      · exfalso
        have hrep : parseRep s ≠ none := parseRep_of_digits s hh
        have : parseRep s = none := by
          have := h2
          unfold parseFloatQ at this
          exact Option.map_eq_none'.mp this
        exact hrep this
    have hd2 : isDigitStr (removeFirstDot s.data) = false := hd
    simp [numFails, bne_iff_ne, h1, hd2]
  · intro s h1 h2
    have h3 : isDigitStr s.data = false := h2
    simp [movFails, bne_iff_ne, h1, h3]
  · intro g db pid t f ht hfail
    have hne := firstErrAux_ne_none g allTeethSO t ht
      (checkTooth_ne_none_of_fail t (g t) f hfail)
    cases he : firstErrAux g allTeethSO with
    | none => exact absurd he hne
    | some e =>
      obtain ⟨t2, f2⟩ := e
      obtain ⟨t0, ht0, hcheck⟩ := firstErrAux_sound g allTeethSO t2 f2 he
      obtain ⟨heq2, hff⟩ := checkTooth_some_sound t0 t2 (g t0) f2 hcheck
      subst heq2
      exact ⟨t2, f2, by simp [savePerioMeasurements, he], ht0, hff⟩

/-- The all-empty tooth slice (untouched entries). -/
def emptyPT : PerioTooth :=
  { psB := "", mgB := "", niB := "", psL := "", mgL := "", niL := "",
    bleedB := false, suppB := false, bleedL := false, suppL := false,
    mov := "", furc := "" }

/-- A grid whose tooth 18 has the malformed probing depth `"abc"`. -/
def gBad : Nat → PerioTooth :=
  fun t => if t = 18 then { emptyPT with psB := "abc" } else emptyPT

/-- Witness for C5: `"abc"` does not parse, fails the check, and the save
is rejected with the store unchanged. -/
theorem C5_witness :
    numFails "abc" = true ∧
    (∃ t2 f2,
        savePerioMeasurements gBad [] 1
          = (some (PerioErr.invalidMeasurement t2 f2), []) ∧
        t2 ∈ allTeethSO ∧ fieldFails (gBad t2) f2 = true) :=
  ⟨C5_validation.1 "abc" (by decide) (by decide),
   C5_validation.2.2 gBad [] 1 18 .psB (by decide) (by decide)⟩

/-- Claim C6, counterexample: `apply_surface_status` invoked on tooth 99
(outside the scheme's fixed set) silently does nothing — it succeeds and
returns the canvas unchanged — whereas the claim (and the spec-side
definition `applySurfaceStatusSpec`) demands an InvalidTooth failure. -/
theorem C6_cex :
    applySurfaceStatus initialCanvas 99 "O" "Caries" = initialCanvas ∧
    applySurfaceStatusSpec initialCanvas 99 "O" "Caries"
      = Except.error (OdontoErr.invalidTooth 99) := by
  constructor
  · decide
  · rfl

/-- Claim C6 (amended): a status assignment (`apply_surface_status`) to a
tooth id outside the fixed tooth set is silently ignored — no error is
raised and the canvas state is returned unchanged — and `load_odontogram`
likewise silently skips any stored row naming such a tooth. -/
theorem C6_silently_ignored (c : Canvas) (t : Nat) (surf status : String)
    (hkeys : ∀ e ∈ c, e.1.1 ∈ allTeethSO) (ht : t ∉ allTeethSO) :
    applySurfaceStatus c t surf status = c ∧
    ∀ rows, loadOdontogramSO c ((t, status, surf) :: rows)
      = loadOdontogramSO c rows := by
  refine ⟨applySurfaceStatus_not_found c t surf status hkeys ht, ?_⟩
  intro rows
  have hkeys2 : ∀ e ∈ whitenAll c, e.1.1 ∈ allTeethSO := by
    intro e he
    obtain ⟨e0, he0, rfl⟩ := List.mem_map.mp he
    exact hkeys e0 he0
  simp only [loadOdontogramSO, List.foldl_cons]
  rw [show applySurfaceStatus (whitenAll c) t surf status = whitenAll c from
    applySurfaceStatus_not_found (whitenAll c) t surf status hkeys2 ht]

/-- A small reachable canvas: one painted surface of tooth 16. -/
def c6c : Canvas := [((16, "O"), "#FF6347")]

/-- Witness for C6 at tooth 99. -/
theorem C6_witness :
    (99 ∉ allTeethSO) ∧ applySurfaceStatus c6c 99 "O" "Caries" = c6c :=
  ⟨by decide, (C6_silently_ignored c6c 99 "O" "Caries" (by decide) (by decide)).1⟩

/-- A grid whose only nonempty cell is tooth 11's mobility. -/
def movGrid (s : String) : Nat → PerioTooth :=
  fun t => if t = 11 then { emptyPT with mov := s } else emptyPT

theorem checkTooth_emptyPT (t : Nat) : checkTooth t emptyPT = none := rfl

theorem checkTooth_movOnly (t : Nat) (s : String) (hs : isDigitStr s.toList = true) :
    checkTooth t { emptyPT with mov := s } = none := by
  have hm : movFails s = false := by
    have hs2 : isDigitStr s.data = true := hs
    simp [movFails, hs2]
  have h0 : numFails "" = false := by decide
  simp [checkTooth, emptyPT, hm, h0]

/-- Claim C10: the mobility grade range 0–3 is not enforced — any grid
whose only entry is a digit-string mobility value passes validation
wholesale, the save succeeds, and the inserted row for that tooth carries
exactly the parsed integer, whatever its magnitude. -/
theorem C10_mobility_unchecked (db : List PerioRow2) (pid : Nat) (s : String)
    (h1 : s ≠ "") (h2 : isDigitStr s.toList = true) :
    (savePerioMeasurements (movGrid s) db pid).1 = none ∧
    (rowFor2 pid (movGrid s) 11).mobility = some (digitsToNat s.toList) ∧
    rowFor2 pid (movGrid s) 11 ∈ (savePerioMeasurements (movGrid s) db pid).2 := by
  have hnone : firstErrAux (movGrid s) allTeethSO = none := by
    refine firstErrAux_none_of_all _ _ ?_
    intro t ht
    by_cases h11 : t = 11
    · subst h11
      simp only [movGrid, if_pos rfl]
      exact checkTooth_movOnly 11 s h2
    · simp only [movGrid, if_neg h11]
      exact checkTooth_emptyPT t
  refine ⟨by simp [savePerioMeasurements, hnone], ?_, ?_⟩
  · simp [rowFor2, movGrid, optMov, h1]
  · simp only [savePerioMeasurements, hnone]
    refine List.mem_append.mpr (Or.inr ?_)
    exact List.mem_map.mpr ⟨11, by decide, rfl⟩

/-- Witness for C10: mobility `"7"` (greater than grade 3) is accepted and
persisted as the integer 7. -/
theorem C10_witness :
    ("7" ≠ "") ∧ isDigitStr "7".toList = true ∧
    (savePerioMeasurements (movGrid "7") [] 1).1 = none ∧
    (rowFor2 1 (movGrid "7") 11).mobility = some 7 :=
  ⟨by decide, by decide,
   (C10_mobility_unchecked [] 1 "7" (by decide) (by decide)).1,
   ((C10_mobility_unchecked [] 1 "7" (by decide) (by decide)).2.1).trans (by decide)⟩

end MuelitaSys
